import Mathlib

/-!
Verification of the tskr task-list frontend
(src/frontend/src/components/TaskList.tsx) against its specification.

The TypeScript component is shallowly embedded: JavaScript strings become
Lean String values (their character lists where character level work is
needed), JS Set of task ids becomes Finset String, nullable fields become
Option, and the code path that can throw a TypeError (indexing past the
end of an array and dereferencing the result) is modelled with Option,
where none stands for the thrown exception.
-/

namespace Tskr

/-- The Task record of TaskList.tsx (interface Task, lines 3 to 17).
The optional field projected is modelled as Bool, since JS treats a
missing field as falsy. -/
structure Task where
  id : String
  task_key : String
  category : String
  task_number : Int
  title : String
  completed : Bool
  scheduled_date : Option String
  recurrence_rule : Option String
  created_at : String
  is_template : Bool
  parent_task_id : Option String
  duration_minutes : Option Int
  projected : Bool
  deriving DecidableEq

/-- The five display buckets returned by classifyRecurrence. -/
inductive RecCat where
  | Daily
  | Weekdays
  | Weekly
  | Monthly
  | Other
  deriving DecidableEq

/-- Substring test: containsSub needle hay is true when needle occurs
contiguously inside hay; embeds the JS String.prototype.includes used in
classifyRecurrence. -/
def containsSub (needle : List Char) : List Char → Bool
  | [] => needle.isEmpty
  | c :: rest => List.isPrefixOf needle (c :: rest) || containsSub needle rest

/-- The day-name list of classifyRecurrence (TaskList.tsx line 59). -/
def dayNames : List String :=
  ["monday", "tuesday", "wednesday", "thursday", "friday", "saturday",
   "sunday", "mon", "tue", "wed", "thu", "fri", "sat", "sun"]

/-- The regular expression test of TaskList.tsx line 62: the whole string
is two digits, a dash, then two digits. -/
def matchesDigitPair : List Char → Bool
  | [a, b, c, d, e] => a.isDigit && b.isDigit && c = '-' && d.isDigit && e.isDigit
  | _ => false

/-- The if chain of classifyRecurrence after lower casing (TaskList.tsx
lines 55 to 63); the chain reads only the lowered character list r. -/
def classifyLowered (r : List Char) : RecCat :=
  if r = "daily".data then RecCat.Daily
  else if r = "weekdays".data then RecCat.Weekdays
  else if dayNames.any (fun d => containsSub d.data r) then RecCat.Weekly
  else if containsSub "monthly".data r || matchesDigitPair r then RecCat.Monthly
  else RecCat.Other

/-- classifyRecurrence (TaskList.tsx lines 53 to 64). The JS guard
(if (!rule) return Other) fires on null and on the empty string, hence
the extra empty-string test. Lower casing is Char.toLower on each
character, matching JS toLowerCase on the ASCII rules in use. -/
def classifyRecurrence (rule : Option String) : RecCat :=
  match rule with
  | none => RecCat.Other
  | some s =>
      if s = "" then RecCat.Other
      else classifyLowered (s.data.map Char.toLower)

/-- Model written from the specification text of the classification
algorithm (spec 4.1): null goes to Other; exact lower-cased match daily
or weekdays; else Weekly when the lower-cased rule has a full or 3-letter
weekday name inside; else Monthly when it has monthly inside or is a
strict two-digit dash two-digit string; else Other. -/
def classifySpecModel (rule : Option String) : RecCat :=
  match rule with
  | none => RecCat.Other
  | some s =>
      let r := s.data.map Char.toLower
      if r = "daily".data then RecCat.Daily
      else if r = "weekdays".data then RecCat.Weekdays
      else if dayNames.any (fun d => containsSub d.data r) then RecCat.Weekly
      else if containsSub "monthly".data r || matchesDigitPair r then RecCat.Monthly
      else RecCat.Other

theorem classifyRecurrence_eq_lowered (s : String) :
    classifyRecurrence (some s) = classifyLowered (s.data.map Char.toLower) := by
  by_cases h : s = ""
  · subst h; decide
  · simp [classifyRecurrence, h]

theorem classifySpecModel_eq_lowered (s : String) :
    classifySpecModel (some s) = classifyLowered (s.data.map Char.toLower) := by
  rfl

/-- C4: classifyRecurrence agrees with the algorithm as worded in the
spec on every input, and on any rule containing both the substring
monthly and a weekday name the weekday check wins, giving Weekly. -/
theorem claim4_classify_spec :
    (∀ rule : Option String, classifyRecurrence rule = classifySpecModel rule) ∧
    (∀ s : String,
      containsSub "monthly".data (s.data.map Char.toLower) = true →
      dayNames.any (fun d => containsSub d.data (s.data.map Char.toLower)) = true →
      classifyRecurrence (some s) = RecCat.Weekly) := by
  constructor
  · intro rule
    match rule with
    | none => rfl
    | some s => rw [classifyRecurrence_eq_lowered, classifySpecModel_eq_lowered]
  · intro s hMonthly hDay
    rw [classifyRecurrence_eq_lowered]
    unfold classifyLowered
    have h1 : s.data.map Char.toLower ≠ "daily".data := by
      intro h; rw [h] at hMonthly; exact absurd hMonthly (by decide)
    have h2 : s.data.map Char.toLower ≠ "weekdays".data := by
      intro h; rw [h] at hMonthly; exact absurd hMonthly (by decide)
    rw [if_neg h1, if_neg h2, if_pos hDay]

/-- Witness for C4 at a concrete ambiguous rule string. -/
theorem claim4_classify_witness :
    classifyRecurrence (some "monthly:MON") = RecCat.Weekly :=
  claim4_classify_spec.2 "monthly:MON" (by decide) (by decide)

/-- C9: classification is stable under case changes; in particular so for
rules classified Daily or Weekdays. Case variants are strings whose
lower-cased character lists agree. -/
theorem claim9_case_stable (s t : String)
    (hcase : s.data.map Char.toLower = t.data.map Char.toLower)
    (_hclass : classifyRecurrence (some s) = RecCat.Daily ∨
      classifyRecurrence (some s) = RecCat.Weekdays) :
    classifyRecurrence (some t) = classifyRecurrence (some s) := by
  rw [classifyRecurrence_eq_lowered, classifyRecurrence_eq_lowered, hcase]

/-- Witness for C9 at a concrete case variant of daily. -/
theorem claim9_case_stable_witness :
    classifyRecurrence (some "DaIlY") = classifyRecurrence (some "daily") :=
  claim9_case_stable "daily" "DaIlY" (by decide) (Or.inl (by decide))

/-- The five bucket lists built by flattenRecurrent and by
renderRecurrentSection (the groups record of TaskList.tsx lines 36
and 263). -/
structure RGroups where
  daily : List Task
  weekdays : List Task
  weekly : List Task
  monthly : List Task
  other : List Task
  deriving DecidableEq

/-- Push one template into its bucket (the forEach of lines 37 to 40 and
264 to 267): the bucket named by classifyRecurrence receives the task at
its end. -/
def pushBucket (g : RGroups) (t : Task) : RGroups :=
  match classifyRecurrence t.recurrence_rule with
  | RecCat.Daily => { g with daily := g.daily ++ [t] }
  | RecCat.Weekdays => { g with weekdays := g.weekdays ++ [t] }
  | RecCat.Weekly => { g with weekly := g.weekly ++ [t] }
  | RecCat.Monthly => { g with monthly := g.monthly ++ [t] }
  | RecCat.Other => { g with other := g.other ++ [t] }

def emptyGroups : RGroups := ⟨[], [], [], [], []⟩

def bucketize (templates : List Task) : RGroups :=
  templates.foldl pushBucket emptyGroups

/-- The collapse loop over the four named keys in order Daily, Weekdays,
Weekly, Monthly (lines 41 to 47 and 270 to 276): a bucket with fewer than
2 members is appended to Other and emptied. -/
def collapseGroups (g : RGroups) : RGroups :=
  let g1 := if g.daily.length < 2 then
    { g with other := g.other ++ g.daily, daily := [] } else g
  let g2 := if g1.weekdays.length < 2 then
    { g1 with other := g1.other ++ g1.weekdays, weekdays := [] } else g1
  let g3 := if g2.weekly.length < 2 then
    { g2 with other := g2.other ++ g2.weekly, weekly := [] } else g2
  if g3.monthly.length < 2 then
    { g3 with other := g3.other ++ g3.monthly, monthly := [] } else g3

/-- flattenRecurrent (TaskList.tsx lines 35 to 49). -/
def flattenRecurrent (templates : List Task) : List Task :=
  let g := collapseGroups (bucketize templates)
  g.daily ++ g.weekdays ++ g.weekly ++ g.monthly ++ g.other

/-- hasSubsections of renderRecurrentSection line 278: some named bucket
is nonempty after the collapse. -/
def hasSubsectionsOf (g : RGroups) : Bool :=
  !g.daily.isEmpty || !g.weekdays.isEmpty || !g.weekly.isEmpty || !g.monthly.isEmpty

/-- The subsections array of renderRecurrentSection lines 279 to 285. -/
def subsectionsOf (g : RGroups) : List (String × List Task) :=
  [("Daily", g.daily), ("Weekdays", g.weekdays), ("Weekly", g.weekly),
   ("Monthly", g.monthly), ("Other", g.other)]

/-- The subsection titles that actually reach the DOM: renderSubsection
returns null on an empty task list (line 248), so only nonempty
subsections render a header; with no named subsection at all the
fallback branch (lines 299 to 303) renders a bare list with no header;
an empty template list renders nothing (line 261). -/
def renderedTitles (templates : List Task) : List String :=
  if templates.isEmpty then []
  else
    let g := collapseGroups (bucketize templates)
    if hasSubsectionsOf g then
      ((subsectionsOf g).filter (fun p => !p.2.isEmpty)).map Prod.fst
    else []

/-- The subsections map of lines 293 to 297: each subsection renders its
tasks at indices runningIndex, runningIndex + 1, ..., and runningIndex
advances by the subsection length, rendered or not. -/
def renderSubsList : Nat → List (String × List Task) → List (Nat × Task)
  | _, [] => []
  | runningIndex, (_, ts) :: rest =>
      List.enumFrom runningIndex ts ++ renderSubsList (runningIndex + ts.length) rest

/-- The full list of (index passed to handleSelectBoxClick, task) pairs
produced by renderRecurrentSection (lines 260 to 306) for a template
list and a start index. -/
def renderRecurrentIndexed (templates : List Task) (startIndex : Nat) :
    List (Nat × Task) :=
  if templates.isEmpty then []
  else
    let g := collapseGroups (bucketize templates)
    if hasSubsectionsOf g then renderSubsList startIndex (subsectionsOf g)
    else List.enumFrom startIndex g.other

theorem bucketize_go (templates : List Task) (g : RGroups) :
    templates.foldl pushBucket g =
      ⟨g.daily ++ (templates.filter
          (fun t => classifyRecurrence t.recurrence_rule = RecCat.Daily)),
       g.weekdays ++ (templates.filter
          (fun t => classifyRecurrence t.recurrence_rule = RecCat.Weekdays)),
       g.weekly ++ (templates.filter
          (fun t => classifyRecurrence t.recurrence_rule = RecCat.Weekly)),
       g.monthly ++ (templates.filter
          (fun t => classifyRecurrence t.recurrence_rule = RecCat.Monthly)),
       g.other ++ (templates.filter
          (fun t => classifyRecurrence t.recurrence_rule = RecCat.Other))⟩ := by
  induction templates generalizing g with
  | nil => simp
  | cons t rest ih =>
      rw [List.foldl_cons, ih]
      unfold pushBucket
      rcases hc : classifyRecurrence t.recurrence_rule <;>
        simp [List.filter_cons, hc]

/-- Closed form of bucketize: each bucket is the classification filter of
the template list, in template order. -/
theorem bucketize_eq (templates : List Task) :
    bucketize templates =
      ⟨templates.filter
          (fun t => classifyRecurrence t.recurrence_rule = RecCat.Daily),
       templates.filter
          (fun t => classifyRecurrence t.recurrence_rule = RecCat.Weekdays),
       templates.filter
          (fun t => classifyRecurrence t.recurrence_rule = RecCat.Weekly),
       templates.filter
          (fun t => classifyRecurrence t.recurrence_rule = RecCat.Monthly),
       templates.filter
          (fun t => classifyRecurrence t.recurrence_rule = RecCat.Other)⟩ := by
  rw [bucketize, bucketize_go]
  rfl

theorem collapseGroups_named (g : RGroups) :
    (collapseGroups g).daily = (if g.daily.length < 2 then [] else g.daily) ∧
    (collapseGroups g).weekdays = (if g.weekdays.length < 2 then [] else g.weekdays) ∧
    (collapseGroups g).weekly = (if g.weekly.length < 2 then [] else g.weekly) ∧
    (collapseGroups g).monthly = (if g.monthly.length < 2 then [] else g.monthly) ∧
    (collapseGroups g).other =
      g.other ++ (if g.daily.length < 2 then g.daily else []) ++
        (if g.weekdays.length < 2 then g.weekdays else []) ++
        (if g.weekly.length < 2 then g.weekly else []) ++
        (if g.monthly.length < 2 then g.monthly else []) := by
  unfold collapseGroups
  by_cases h1 : g.daily.length < 2 <;>
    by_cases h2 : g.weekdays.length < 2 <;>
      by_cases h3 : g.weekly.length < 2 <;>
        by_cases h4 : g.monthly.length < 2 <;>
          simp [h1, h2, h3, h4]

theorem renderedTitles_not_mem_of_empty (templates : List Task) (title : String)
    (h : ∀ ts, (title, ts) ∈ subsectionsOf (collapseGroups (bucketize templates)) →
      ts = []) :
    title ∉ renderedTitles templates := by
  unfold renderedTitles
  by_cases he : templates.isEmpty
  · simp [he]
  · simp only [he, if_false, Bool.false_eq_true]
    by_cases hs : hasSubsectionsOf (collapseGroups (bucketize templates))
    · simp only [hs, if_true]
      intro hmem
      obtain ⟨⟨a, ts⟩, hp, hfst⟩ := List.mem_map.mp hmem
      obtain ⟨hp2, hne⟩ := List.mem_filter.mp hp
      dsimp at hfst
      subst hfst
      have := h ts hp2
      simp [this] at hne
    · simp [hs]

/-- C5: the grouping contract of the Recurrent section. For every
template list, with g0 the raw buckets and g the collapsed buckets:
each named bucket with fewer than 2 members is emptied and its members
moved to Other (and a bucket with 2 or more is kept whole); the flattened
ordering is the bucket concatenation in the fixed order Daily, Weekdays,
Weekly, Monthly, Other; the rendered subsection titles are in that same
fixed order; a bucket left empty renders no subsection header; and when
exactly one template classifies Weekly, no Weekly header renders and that
template lands in Other. -/
theorem claim5_grouping_collapse (templates : List Task) :
    ((bucketize templates).daily.length < 2 →
      (collapseGroups (bucketize templates)).daily = [] ∧
      ∀ t ∈ (bucketize templates).daily,
        t ∈ (collapseGroups (bucketize templates)).other) ∧
    ((bucketize templates).weekdays.length < 2 →
      (collapseGroups (bucketize templates)).weekdays = [] ∧
      ∀ t ∈ (bucketize templates).weekdays,
        t ∈ (collapseGroups (bucketize templates)).other) ∧
    ((bucketize templates).weekly.length < 2 →
      (collapseGroups (bucketize templates)).weekly = [] ∧
      ∀ t ∈ (bucketize templates).weekly,
        t ∈ (collapseGroups (bucketize templates)).other) ∧
    ((bucketize templates).monthly.length < 2 →
      (collapseGroups (bucketize templates)).monthly = [] ∧
      ∀ t ∈ (bucketize templates).monthly,
        t ∈ (collapseGroups (bucketize templates)).other) ∧
    (2 ≤ (bucketize templates).daily.length →
      (collapseGroups (bucketize templates)).daily = (bucketize templates).daily) ∧
    (2 ≤ (bucketize templates).weekdays.length →
      (collapseGroups (bucketize templates)).weekdays = (bucketize templates).weekdays) ∧
    (2 ≤ (bucketize templates).weekly.length →
      (collapseGroups (bucketize templates)).weekly = (bucketize templates).weekly) ∧
    (2 ≤ (bucketize templates).monthly.length →
      (collapseGroups (bucketize templates)).monthly = (bucketize templates).monthly) ∧
    (flattenRecurrent templates =
      (collapseGroups (bucketize templates)).daily ++
      (collapseGroups (bucketize templates)).weekdays ++
      (collapseGroups (bucketize templates)).weekly ++
      (collapseGroups (bucketize templates)).monthly ++
      (collapseGroups (bucketize templates)).other) ∧
    (renderedTitles templates).Sublist
      ["Daily", "Weekdays", "Weekly", "Monthly", "Other"] ∧
    ((collapseGroups (bucketize templates)).weekly = [] →
      "Weekly" ∉ renderedTitles templates) ∧
    ((bucketize templates).weekly.length = 1 →
      "Weekly" ∉ renderedTitles templates ∧
      ∀ t ∈ (bucketize templates).weekly,
        t ∈ (collapseGroups (bucketize templates)).other) := by
  obtain ⟨hd, hw, hwk, hm, ho⟩ := collapseGroups_named (bucketize templates)
  have hWeeklyEmptyTitle :
      (collapseGroups (bucketize templates)).weekly = [] →
      "Weekly" ∉ renderedTitles templates := by
    intro hempty
    apply renderedTitles_not_mem_of_empty
    intro ts hmem
    simp [subsectionsOf, Prod.mk.injEq] at hmem
    rw [hmem]
    exact hempty
  refine ⟨?_, ?_, ?_, ?_, ?_, ?_, ?_, ?_, ?_, ?_, hWeeklyEmptyTitle, ?_⟩
  · intro hlt
    refine ⟨by rw [hd, if_pos hlt], ?_⟩
    intro t ht
    rw [ho, if_pos hlt]
    simp [ht]
  · intro hlt
    refine ⟨by rw [hw, if_pos hlt], ?_⟩
    intro t ht
    rw [ho, if_pos hlt]
    simp [ht]
  · intro hlt
    refine ⟨by rw [hwk, if_pos hlt], ?_⟩
    intro t ht
    rw [ho, if_pos hlt]
    simp [ht]
  · intro hlt
    refine ⟨by rw [hm, if_pos hlt], ?_⟩
    intro t ht
    rw [ho, if_pos hlt]
    simp [ht]
  · intro hge
    rw [hd, if_neg (by omega)]
  · intro hge
    rw [hw, if_neg (by omega)]
  · intro hge
    rw [hwk, if_neg (by omega)]
  · intro hge
    rw [hm, if_neg (by omega)]
  · rfl
  · unfold renderedTitles
    by_cases he : templates.isEmpty
    · simp [he]
    · simp only [he, if_false, Bool.false_eq_true]
      by_cases hs : hasSubsectionsOf (collapseGroups (bucketize templates))
      · simp only [hs, if_true]
        have : (subsectionsOf (collapseGroups (bucketize templates))).map Prod.fst =
            ["Daily", "Weekdays", "Weekly", "Monthly", "Other"] := rfl
        rw [← this]
        exact List.Sublist.map Prod.fst (List.filter_sublist _)
      · simp [hs]
  · intro hone
    have hlt : (bucketize templates).weekly.length < 2 := by omega
    have hempty : (collapseGroups (bucketize templates)).weekly = [] := by
      rw [hwk, if_pos hlt]
    refine ⟨hWeeklyEmptyTitle hempty, ?_⟩
    intro t ht
    rw [ho, if_pos hlt]
    simp [ht]

/-- Witness for C5 on a concrete template list: two daily templates and
one weekly template; the weekly bucket has exactly one member, so no
Weekly header renders and the weekly template moves into Other. -/
theorem claim5_grouping_witness :
    "Weekly" ∉ renderedTitles
      [⟨"a", "", "T", 0, "", false, none, some "daily", "", true, none, none, false⟩,
       ⟨"b", "", "T", 0, "", false, none, some "daily", "", true, none, none, false⟩,
       ⟨"c", "", "T", 0, "", false, none, some "mon", "", true, none, none, false⟩] :=
  ((claim5_grouping_collapse _).2.2.2.2.2.2.2.2.2.2.2 (by decide)).1

/-- C10: the ordering flattenRecurrent stores for selection indexing and
the (index, task) pairs renderRecurrentSection actually hands to the
click handlers agree: the rendered pairs are exactly the flattened list
enumerated from the start index, so each task receives the index of its
position in the stored ordered visible list. -/
theorem renderSubsList_enum (subs : List (String × List Task)) :
    ∀ n, renderSubsList n subs = List.enumFrom n ((subs.map Prod.snd).flatten) := by
  induction subs with
  | nil => intro n; rfl
  | cons p rest ih =>
      intro n
      cases p with
      | mk title ts =>
          simp only [renderSubsList, List.map_cons, List.flatten_cons, ih]
          rw [List.enumFrom_append]

theorem claim10_render_flatten_agree (templates : List Task) (startIndex : Nat) :
    renderRecurrentIndexed templates startIndex =
      List.enumFrom startIndex (flattenRecurrent templates) := by
  by_cases he : templates.isEmpty
  · have ht : templates = [] := List.isEmpty_iff.mp he
    subst ht
    simp [renderRecurrentIndexed, flattenRecurrent, bucketize, emptyGroups,
      collapseGroups]
  · have hrr : renderRecurrentIndexed templates startIndex =
        (if hasSubsectionsOf (collapseGroups (bucketize templates)) then
          renderSubsList startIndex (subsectionsOf (collapseGroups (bucketize templates)))
        else List.enumFrom startIndex (collapseGroups (bucketize templates)).other) := by
      simp [renderRecurrentIndexed, he]
    rw [hrr]
    by_cases hs : hasSubsectionsOf (collapseGroups (bucketize templates))
    · rw [if_pos hs, renderSubsList_enum]
      simp [subsectionsOf, flattenRecurrent, List.append_assoc]
    · rw [if_neg hs]
      simp only [hasSubsectionsOf, Bool.or_eq_true, Bool.not_eq_true', not_or,
        Bool.not_eq_false, List.isEmpty_iff] at hs
      have hflat : flattenRecurrent templates =
          (collapseGroups (bucketize templates)).other := by
        simp [flattenRecurrent, hs.1.1.1, hs.1.1.2, hs.1.2, hs.2]
      rw [hflat]

/-- The selection state held by TaskList: the selectedIds set (line 83)
and lastClickedIndexRef (line 84). -/
structure SelState where
  selectedIds : Finset String
  lastClicked : Option Nat
  deriving DecidableEq

/-- Which branch of handleSelectBoxClick runs: ctrl or meta takes the
toggle branch, else shift takes the range branch, else plain. -/
inductive ClickKind where
  | plain
  | toggle
  | range
  deriving DecidableEq

/-- The shift branch loop (line 140): collect ordered[lo].id, then
ordered[lo+1].id, ... for the given count. Reading past the end of the
JS array yields undefined and the .id dereference throws, modelled by
none. -/
def collectIds (ordered : List Task) : Nat → Nat → Option (List String)
  | _, 0 => some []
  | lo, n+1 =>
      match ordered[lo]? with
      | none => none
      | some t => (collectIds ordered (lo+1) n).map (fun rest => t.id :: rest)

/-- handleSelectBoxClick (TaskList.tsx lines 120 to 154). The result is
the new selection state; none models the TypeError thrown when the shift
branch indexes past the end of the ordered list. -/
def handleSelectBoxClick (ordered : List Task) (st : SelState) (task : Task)
    (indexInOrdered : Nat) (kind : ClickKind) : Option SelState :=
  match kind with
  | ClickKind.toggle =>
      let next := if task.id ∈ st.selectedIds then st.selectedIds.erase task.id
        else insert task.id st.selectedIds
      some { selectedIds := next, lastClicked := some indexInOrdered }
  | ClickKind.range =>
      let last := st.lastClicked.getD indexInOrdered
      let lo := min last indexInOrdered
      let hi := max last indexInOrdered
      (collectIds ordered lo (hi + 1 - lo)).map
        (fun ids => { selectedIds := ids.toFinset, lastClicked := st.lastClicked })
  | ClickKind.plain =>
      let next := if task.id ∈ st.selectedIds then st.selectedIds.erase task.id
        else {task.id}
      some { selectedIds := next, lastClicked := some indexInOrdered }

/-- A task carrying only an id, for concrete selection scenarios. -/
def mkIdTask (i : String) : Task :=
  ⟨i, "", "T", 0, "", false, none, none, "", false, none, none, false⟩

theorem collectIds_spec (ordered : List Task) :
    ∀ (n lo : Nat), lo + n ≤ ordered.length → ∀ x : String,
      ∃ l, collectIds ordered lo n = some l ∧
        (x ∈ l ↔ ∃ j, lo ≤ j ∧ j < lo + n ∧
          ∃ hj : j < ordered.length, (ordered.get ⟨j, hj⟩).id = x) := by
  intro n
  induction n with
  | zero =>
      intro lo _ x
      refine ⟨[], rfl, ?_⟩
      simp only [List.not_mem_nil, false_iff]
      rintro ⟨j, hj1, hj2, _⟩
      omega
  | succ n ih =>
      intro lo h x
      have hlo : lo < ordered.length := by omega
      obtain ⟨l, hl, hmem⟩ := ih (lo + 1) (by omega) x
      refine ⟨(ordered.get ⟨lo, hlo⟩).id :: l, ?_, ?_⟩
      · show collectIds ordered lo (n + 1) = _
        have hgetq : ordered[lo]? = some (ordered.get ⟨lo, hlo⟩) := by
          rw [List.getElem?_eq_getElem hlo]
          rfl
        simp [collectIds, hgetq, hl]
      · simp only [List.mem_cons, hmem]
        constructor
        · rintro (rfl | ⟨j, hj1, hj2, hj3, hj4⟩)
          · exact ⟨lo, Nat.le_refl _, by omega, hlo, rfl⟩
          · exact ⟨j, by omega, by omega, hj3, hj4⟩
        · rintro ⟨j, hj1, hj2, hj3, hj4⟩
          by_cases hjlo : j = lo
          · subst hjlo
            left
            rw [← hj4]
          · right
            exact ⟨j, by omega, by omega, hj3, hj4⟩

/-- C8: a toggle (ctrl or meta) click flips membership of the clicked
task in the selection, leaves every other id unchanged, and records the
clicked index as the last index. -/
theorem claim8_toggle_click (ordered : List Task) (st : SelState) (task : Task)
    (i : Nat) :
    ∃ st', handleSelectBoxClick ordered st task i ClickKind.toggle = some st' ∧
      (task.id ∈ st'.selectedIds ↔ task.id ∉ st.selectedIds) ∧
      (∀ x, x ≠ task.id → (x ∈ st'.selectedIds ↔ x ∈ st.selectedIds)) ∧
      st'.lastClicked = some i := by
  refine ⟨_, rfl, ?_, ?_, rfl⟩
  · by_cases h : task.id ∈ st.selectedIds <;>
      simp [handleSelectBoxClick, h]
  · intro x hx
    by_cases h : task.id ∈ st.selectedIds <;>
      simp [handleSelectBoxClick, h, Finset.mem_erase, Finset.mem_insert, hx,
        fun hxx : x = task.id => hx hxx]

/-- Witness for C8: toggling an id not in the selection on a concrete
state. -/
theorem claim8_toggle_click_witness :
    ∃ st', handleSelectBoxClick [] ⟨{"a"}, none⟩ (mkIdTask "b") 3
        ClickKind.toggle = some st' ∧
      ("a" ∈ st'.selectedIds ↔ "a" ∈ ({"a"} : Finset String)) := by
  obtain ⟨st', h1, _, h3, _⟩ := claim8_toggle_click [] ⟨{"a"}, none⟩ (mkIdTask "b") 3
  exact ⟨st', h1, h3 "a" (by decide)⟩

/-- C1 counterexample: with selection containing the clicked task a
together with another task b, a plain click on a leaves the selection
at the singleton b, not at the singleton a as the claim states. -/
theorem claim1_plain_click_counterexample :
    (handleSelectBoxClick [] ⟨{"a", "b"}, none⟩ (mkIdTask "a") 0
        ClickKind.plain).map SelState.selectedIds = some ({"b"} : Finset String) ∧
    some ({"b"} : Finset String) ≠ some ({"a"} : Finset String) := by
  decide

/-- C1 as amended: a plain click on a task already in the selection
removes just that task (so a sole selection is cleared, but co-selected
tasks survive); a plain click on an unselected task makes it the sole
selection; in both situations the last index becomes the clicked
index. -/
theorem claim1_plain_click (ordered : List Task) (st : SelState) (task : Task)
    (i : Nat) :
    ∃ st', handleSelectBoxClick ordered st task i ClickKind.plain = some st' ∧
      st'.lastClicked = some i ∧
      (task.id ∈ st.selectedIds →
        st'.selectedIds = st.selectedIds.erase task.id) ∧
      (task.id ∉ st.selectedIds → st'.selectedIds = {task.id}) ∧
      (st.selectedIds = {task.id} → st'.selectedIds = ∅) := by
  refine ⟨_, rfl, rfl, ?_, ?_, ?_⟩
  · intro h
    simp [handleSelectBoxClick, h]
  · intro h
    simp [handleSelectBoxClick, h]
  · intro h
    have hmem : task.id ∈ st.selectedIds := by
      rw [h]
      exact Finset.mem_singleton_self _
    simp [handleSelectBoxClick, hmem, h]

/-- Witness for C1: a plain click on the sole selected task clears the
selection. -/
theorem claim1_plain_click_witness :
    ∃ st', handleSelectBoxClick [] ⟨{"a"}, none⟩ (mkIdTask "a") 0
        ClickKind.plain = some st' ∧ st'.selectedIds = ∅ := by
  obtain ⟨st', h1, _, _, _, h5⟩ :=
    claim1_plain_click [] ⟨{"a"}, none⟩ (mkIdTask "a") 0
  exact ⟨st', h1, h5 (by decide)⟩

/-- Six tasks in visible order, for the range selection scenario. -/
def rangeDemoTasks : List Task :=
  [mkIdTask "t0", mkIdTask "t1", mkIdTask "t2", mkIdTask "t3",
   mkIdTask "t4", mkIdTask "t5"]

/-- C2: a shift click with both the clicked index and any recorded last
index inside the list selects exactly the tasks of the contiguous slice
between last index (or the clicked index when none is recorded) and the
clicked index, inclusive; the last index is unchanged; the slice is the
same whichever of the two indices is larger; and the spec scenario
(plain click 2, shift click 5, ctrl click 0 over six tasks) produces
selections t2, then t2 to t5, then t0 with t2 to t5, with the last
index staying 2 across the shift click and becoming 0 after the ctrl
click. -/
theorem claim2_range_click :
    (∀ (ordered : List Task) (st : SelState) (task : Task) (i : Nat),
      (∀ l, st.lastClicked = some l → l < ordered.length) →
      i < ordered.length →
      ∃ st', handleSelectBoxClick ordered st task i ClickKind.range = some st' ∧
        st'.lastClicked = st.lastClicked ∧
        (∀ x, x ∈ st'.selectedIds ↔
          ∃ j, min (st.lastClicked.getD i) i ≤ j ∧
            j ≤ max (st.lastClicked.getD i) i ∧
            ∃ hj : j < ordered.length, (ordered.get ⟨j, hj⟩).id = x)) ∧
    (∀ (ordered : List Task) (S1 S2 : Finset String) (t1 t2 : Task) (a b : Nat),
      (handleSelectBoxClick ordered ⟨S1, some a⟩ t1 b ClickKind.range).map
          SelState.selectedIds =
        (handleSelectBoxClick ordered ⟨S2, some b⟩ t2 a ClickKind.range).map
          SelState.selectedIds) ∧
    (handleSelectBoxClick rangeDemoTasks ⟨∅, none⟩ (mkIdTask "t2") 2
        ClickKind.plain = some ⟨{"t2"}, some 2⟩ ∧
      handleSelectBoxClick rangeDemoTasks ⟨{"t2"}, some 2⟩ (mkIdTask "t5") 5
        ClickKind.range = some ⟨{"t2", "t3", "t4", "t5"}, some 2⟩ ∧
      handleSelectBoxClick rangeDemoTasks ⟨{"t2", "t3", "t4", "t5"}, some 2⟩
        (mkIdTask "t0") 0 ClickKind.toggle =
          some ⟨{"t0", "t2", "t3", "t4", "t5"}, some 0⟩) := by
  refine ⟨?_, ?_, by decide, by decide, by decide⟩
  · intro ordered st task i hlast hi
    have hlastlt : st.lastClicked.getD i < ordered.length := by
      match hst : st.lastClicked with
      | none => simpa using hi
      | some l => simpa using hlast l hst
    have hminmax : min (st.lastClicked.getD i) i ≤ max (st.lastClicked.getD i) i :=
      le_trans (Nat.min_le_left _ _) (Nat.le_max_left _ _)
    have hsum : min (st.lastClicked.getD i) i +
        (max (st.lastClicked.getD i) i + 1 - min (st.lastClicked.getD i) i) =
          max (st.lastClicked.getD i) i + 1 :=
      Nat.add_sub_cancel' (le_trans hminmax (Nat.le_succ _))
    have hmaxlt : max (st.lastClicked.getD i) i < ordered.length :=
      Nat.max_lt.mpr ⟨hlastlt, hi⟩
    have hbound : min (st.lastClicked.getD i) i +
        (max (st.lastClicked.getD i) i + 1 - min (st.lastClicked.getD i) i) ≤
          ordered.length := by
      rw [hsum]
      exact hmaxlt
    obtain ⟨l, hl, _⟩ := collectIds_spec ordered _ _ hbound ""
    refine ⟨⟨l.toFinset, st.lastClicked⟩, ?_, rfl, ?_⟩
    · simp [handleSelectBoxClick, hl]
    · intro x
      obtain ⟨l', hl', hmem'⟩ := collectIds_spec ordered _ _ hbound x
      rw [hl] at hl'
      cases hl'
      simp only [List.mem_toFinset, hmem']
      constructor
      · rintro ⟨j, hj1, hj2, hj3, hj4⟩
        rw [hsum] at hj2
        exact ⟨j, hj1, Nat.lt_succ_iff.mp hj2, hj3, hj4⟩
      · rintro ⟨j, hj1, hj2, hj3, hj4⟩
        refine ⟨j, hj1, ?_, hj3, hj4⟩
        rw [hsum]
        exact Nat.lt_succ_iff.mpr hj2
  · intro ordered S1 S2 t1 t2 a b
    simp only [handleSelectBoxClick, Option.getD_some, Nat.min_comm, Nat.max_comm,
      Option.map_map]
    rcases collectIds ordered (min a b) (max a b + 1 - min a b) with _ | l <;> rfl

/-- Witness for C2 at the concrete scenario list. -/
theorem claim2_range_click_witness :
    ∃ st', handleSelectBoxClick rangeDemoTasks ⟨∅, some 2⟩ (mkIdTask "t5") 5
        ClickKind.range = some st' ∧ st'.lastClicked = some 2 := by
  obtain ⟨st', h1, h2, _⟩ :=
    claim2_range_click.1 rangeDemoTasks ⟨∅, some 2⟩ (mkIdTask "t5") 5
      (by intro l hl; injection hl with h; subst h; decide) (by decide)
  exact ⟨st', h1, h2⟩

/-- C3: evaluation at a stale recorded index. The visible list holds one
task but the recorded last index is 2; the shift branch walks indices 0,
1, 2, reads undefined at index 1 and throws (modelled none). The code
does not clamp the range. -/
theorem claim3_range_stale_throws :
    handleSelectBoxClick [mkIdTask "s0"] ⟨∅, some 2⟩ (mkIdTask "s0") 0
      ClickKind.range = none := by
  decide

/-- A task is timed when its scheduled_date is set and carries a time
component, signalled by the letter T of the ISO datetime format
(renderCalendarView line 310). -/
def isTimed (t : Task) : Bool :=
  match t.scheduled_date with
  | none => false
  | some s => s.data.contains 'T'

/-- The JS Array.sort of line 310 with comparator a.scheduled_date less
than b.scheduled_date, modelled as an insertion sort by the same key;
the claims below depend only on which elements the sorted list holds,
not on the tie order JS leaves unspecified. -/
def insertByDate (x : Task) : List Task → List Task
  | [] => [x]
  | y :: ys =>
      if x.scheduled_date.getD "" < y.scheduled_date.getD "" then x :: y :: ys
      else y :: insertByDate x ys

def sortByDate (l : List Task) : List Task := l.foldr insertByDate []

/-- timedTasks of renderCalendarView lines 310 to 312. -/
def timedTasks (tasks : List Task) : List Task :=
  sortByDate (tasks.filter (fun t => isTimed t))

/-- untimedTasks of renderCalendarView line 313. -/
def untimedTasks (tasks : List Task) : List Task :=
  tasks.filter (fun t => !(isTimed t))

/-- The combined ordering stored for selection indexing (line 314). -/
def calendarOrdered (tasks : List Task) : List Task :=
  untimedTasks tasks ++ timedTasks tasks

/-- The unscheduled list renders untimed tasks at indices 0, 1, ...
(line 333). -/
def calendarUnscheduledIndexed (tasks : List Task) : List (Nat × Task) :=
  List.enumFrom 0 (untimedTasks tasks)

/-- The 24-hour grid renders timed tasks at indices untimed count, ...
(lines 344 and 345). -/
def calendarGridIndexed (tasks : List Task) : List (Nat × Task) :=
  List.enumFrom (untimedTasks tasks).length (timedTasks tasks)

theorem mem_insertByDate (x y : Task) :
    ∀ l : List Task, y ∈ insertByDate x l ↔ y = x ∨ y ∈ l := by
  intro l
  induction l with
  | nil => simp [insertByDate]
  | cons z zs ih =>
      by_cases h : x.scheduled_date.getD "" < z.scheduled_date.getD ""
      · simp [insertByDate, h]
      · simp only [insertByDate, if_neg h, List.mem_cons, ih]
        tauto

theorem mem_sortByDate (y : Task) :
    ∀ l : List Task, y ∈ sortByDate l ↔ y ∈ l := by
  intro l
  induction l with
  | nil => simp [sortByDate]
  | cons z zs ih =>
      have ih' : y ∈ List.foldr insertByDate [] zs ↔ y ∈ zs := ih
      simp only [sortByDate, List.foldr_cons, mem_insertByDate, ih', List.mem_cons]

theorem mem_timedTasks (tasks : List Task) (t : Task) (h : t ∈ timedTasks tasks) :
    isTimed t = true := by
  rw [timedTasks, mem_sortByDate] at h
  exact (List.mem_filter.mp h).2

theorem mem_untimedTasks (tasks : List Task) (t : Task)
    (h : t ∈ untimedTasks tasks) : isTimed t = false := by
  have := (List.mem_filter.mp h).2
  simpa using this

/-- C7: in the day calendar view, the combined ordering used for
selection indexing is the unscheduled (untimed) tasks followed by the
timed tasks, so every untimed task precedes every timed task; with the
indices rendered into the click handlers matching positions in that
ordering; the grid holds only timed tasks; the unscheduled list holds
only untimed tasks, and every untimed task of the collection is in the
unscheduled list and not on the grid. -/
theorem claim7_untimed_first (tasks : List Task) :
    (∀ i j (hij : i ≤ j) (hj : j < (calendarOrdered tasks).length),
      isTimed ((calendarOrdered tasks).get ⟨i, Nat.lt_of_le_of_lt hij hj⟩) = true →
      isTimed ((calendarOrdered tasks).get ⟨j, hj⟩) = true) ∧
    (∀ p ∈ calendarGridIndexed tasks, isTimed p.2 = true) ∧
    (∀ p ∈ calendarUnscheduledIndexed tasks, isTimed p.2 = false) ∧
    (calendarUnscheduledIndexed tasks ++ calendarGridIndexed tasks =
      List.enumFrom 0 (calendarOrdered tasks)) ∧
    (∀ t ∈ tasks, isTimed t = false →
      t ∈ untimedTasks tasks ∧ t ∉ timedTasks tasks) := by
  refine ⟨?_, ?_, ?_, ?_, ?_⟩
  · intro i j hij hj htimed
    have hlen : (calendarOrdered tasks).length =
        (untimedTasks tasks).length + (timedTasks tasks).length :=
      List.length_append _ _
    have hge : (untimedTasks tasks).length ≤ i := by
      by_contra hlt
      push_neg at hlt
      have hgetu : (calendarOrdered tasks).get ⟨i, Nat.lt_of_le_of_lt hij hj⟩ =
          (untimedTasks tasks).get ⟨i, hlt⟩ := by
        show (untimedTasks tasks ++ timedTasks tasks).get
          ⟨i, Nat.lt_of_le_of_lt hij hj⟩ = _
        simp [List.getElem_append_left hlt]
      rw [hgetu] at htimed
      have := mem_untimedTasks tasks ((untimedTasks tasks).get ⟨i, hlt⟩)
        (List.get_mem (untimedTasks tasks) i hlt)
      rw [htimed] at this
      simp at this
    have hjge : (untimedTasks tasks).length ≤ j := le_trans hge hij
    have hjlt : j - (untimedTasks tasks).length < (timedTasks tasks).length := by
      omega
    have hgett : (calendarOrdered tasks).get ⟨j, hj⟩ =
        (timedTasks tasks).get ⟨j - (untimedTasks tasks).length, hjlt⟩ := by
      show (untimedTasks tasks ++ timedTasks tasks).get ⟨j, hj⟩ = _
      simp [List.getElem_append_right hjge]
    rw [hgett]
    exact mem_timedTasks tasks _
      (List.get_mem (timedTasks tasks) (j - (untimedTasks tasks).length) hjlt)
  · intro p hp
    rw [calendarGridIndexed] at hp
    have := List.enumFrom_map_snd (untimedTasks tasks).length (timedTasks tasks)
    have hmem : p.2 ∈ timedTasks tasks := by
      rw [← this]
      exact List.mem_map_of_mem Prod.snd hp
    exact mem_timedTasks tasks _ hmem
  · intro p hp
    rw [calendarUnscheduledIndexed] at hp
    have := List.enumFrom_map_snd 0 (untimedTasks tasks)
    have hmem : p.2 ∈ untimedTasks tasks := by
      rw [← this]
      exact List.mem_map_of_mem Prod.snd hp
    exact mem_untimedTasks tasks _ hmem
  · rw [calendarUnscheduledIndexed, calendarGridIndexed, calendarOrdered,
      List.enumFrom_append, Nat.zero_add]
  · intro t ht huntimed
    constructor
    · rw [untimedTasks, List.mem_filter]
      exact ⟨ht, by simp [huntimed]⟩
    · intro hmem
      have := mem_timedTasks tasks t hmem
      rw [huntimed] at this
      simp at this

/-- Witness for C7 on a concrete two-task collection: one timed task and
one untimed task; the combined list puts the untimed task first, and the
partition clause applies at indices 0 and 1. -/
theorem claim7_untimed_first_witness :
    isTimed ((calendarOrdered
      [⟨"x", "", "T", 0, "", false, some "2024-05-01T09:30", none, "", false,
        none, none, false⟩,
       mkIdTask "y"]).get ⟨1, by decide⟩) = true :=
  (claim7_untimed_first _).1 1 1 (Nat.le_refl 1) (by decide) (by decide)

/-- HOUR_HEIGHT (TaskList.tsx line 75): pixels per hour. -/
def HOUR_HEIGHT : Int := 60

/-- DEFAULT_DURATION (line 77): fallback minutes for the block height. -/
def DEFAULT_DURATION : Int := 30

/-- Numeric value of a two-character field, as JS Number on a two-digit
string (renderCalendarView line 349). -/
def parseTwoDigitNum (a b : Char) : Nat :=
  (a.toNat - 48) * 10 + (b.toNat - 48)

/-- The time parsing of renderCalendarView lines 348 and 349: slice
characters 11 to 15 of the scheduled_date, split at the colon, read the
two parts as numbers. Inputs not of the assumed YYYY-MM-DDTHH:MM shape
fall back to zero. -/
def parseClock (s : String) : Nat × Nat :=
  match (s.data.drop 11).take 5 with
  | [a, b, ':', c, d] => (parseTwoDigitNum a b, parseTwoDigitNum c d)
  | _ => (0, 0)

/-- topPx of line 350: hour times HOUR_HEIGHT plus minute times
HOUR_HEIGHT over 60. -/
def calendarTopPx (t : Task) : Int :=
  ((parseClock (t.scheduled_date.getD "")).1 : Int) * HOUR_HEIGHT +
    ((parseClock (t.scheduled_date.getD "")).2 : Int) * (HOUR_HEIGHT / 60)

/-- The JS expression task.duration_minutes || DEFAULT_DURATION of line
351: null and the number 0 are both falsy, so both take the default. -/
def jsOrDuration (d : Option Int) : Int :=
  match d with
  | none => DEFAULT_DURATION
  | some v => if v = 0 then DEFAULT_DURATION else v

/-- The rendered block height of lines 352 and 365: duration times
HOUR_HEIGHT over 60, floored at 16 by Math.max. -/
def calendarBlockHeight (t : Task) : Int :=
  max (jsOrDuration t.duration_minutes * (HOUR_HEIGHT / 60)) 16

/-- The height formula as worded in the claim: duration_minutes takes
the default value exactly when it is null. -/
def claimHeightModel (dur : Option Int) : Int :=
  max (dur.getD DEFAULT_DURATION * (HOUR_HEIGHT / 60)) 16

/-- A timed task at 09:30 with duration 45, the spec example. -/
def exampleTask930 : Task :=
  ⟨"e", "", "T", 0, "", false, some "2024-05-01T09:30", none, "", false,
   none, some 45, false⟩

/-- A timed task whose duration_minutes is 0, not null. -/
def zeroDurTask : Task :=
  ⟨"z", "", "T", 0, "", false, some "2024-05-01T10:00", none, "", false,
   none, some 0, false⟩

/-- C6 counterexample: at duration_minutes 0 the code renders height 30
(the JS or-expression treats 0 as falsy and applies the 30 minute
default), while the formula of the claim, whose default applies exactly
when the duration is null, gives max(0, 16) = 16. -/
theorem claim6_layout_counterexample :
    calendarBlockHeight zeroDurTask = 30 ∧
    claimHeightModel zeroDurTask.duration_minutes = 16 ∧
    calendarBlockHeight zeroDurTask ≠ claimHeightModel zeroDurTask.duration_minutes := by
  decide

/-- C6 as amended: the top of a timed block is hour times 60 plus minute
times 60 over 60 pixels as parsed from the HH:MM component; the height
is max(duration times 60 over 60, 16) where the duration defaults to 30
when duration_minutes is null or 0 (not only when null); and the spec
example at 09:30 with duration 45 yields top 570 and height 45. -/
theorem claim6_layout (t : Task) :
    (∀ (pre : List Char) (h1 h2 m1 m2 : Char) (rest : List Char),
      pre.length = 10 →
      t.scheduled_date =
        some (String.mk (pre ++ 'T' :: h1 :: h2 :: ':' :: m1 :: m2 :: rest)) →
      calendarTopPx t = (parseTwoDigitNum h1 h2 : Int) * HOUR_HEIGHT +
        (parseTwoDigitNum m1 m2 : Int) * (HOUR_HEIGHT / 60)) ∧
    (t.duration_minutes ≠ some 0 →
      calendarBlockHeight t = claimHeightModel t.duration_minutes) ∧
    (t.duration_minutes = some 0 →
      calendarBlockHeight t = claimHeightModel none) ∧
    (calendarTopPx exampleTask930 = 570 ∧ calendarBlockHeight exampleTask930 = 45) := by
  refine ⟨?_, ?_, ?_, by decide, by decide⟩
  · intro pre h1 h2 m1 m2 rest hlen hdate
    unfold calendarTopPx
    rw [hdate]
    have hdrop : ((String.mk (pre ++ 'T' :: h1 :: h2 :: ':' :: m1 :: m2 :: rest)).data.drop 11)
        = h1 :: h2 :: ':' :: m1 :: m2 :: rest := by
      show ((pre ++ 'T' :: h1 :: h2 :: ':' :: m1 :: m2 :: rest).drop 11) = _
      rw [show (11 : Nat) = pre.length + 1 by omega]
      rw [List.drop_append]
      rfl
    simp [parseClock, hdrop, List.take]
  · intro h
    match hd : t.duration_minutes with
    | none => simp [calendarBlockHeight, jsOrDuration, claimHeightModel, hd]
    | some v =>
        have hv : v ≠ 0 := by
          intro hv0
          exact h (by rw [hd, hv0])
        simp [calendarBlockHeight, jsOrDuration, claimHeightModel, hd, hv]
  · intro h
    simp [calendarBlockHeight, jsOrDuration, claimHeightModel, h]

/-- Witness for C6 at the 09:30 example task. -/
theorem claim6_layout_witness :
    calendarTopPx exampleTask930 = (parseTwoDigitNum '0' '9' : Int) * HOUR_HEIGHT +
      (parseTwoDigitNum '3' '0' : Int) * (HOUR_HEIGHT / 60) :=
  (claim6_layout exampleTask930).1 "2024-05-01".data '0' '9' '3' '0' []
    (by decide) (by decide)

end Tskr
